import Mathlib

/-!
Verification of the field-format validators in
`aries_cloudagent/messaging/valid.py`.

The validators are marshmallow `Regexp` / `Range` / `OneOf` subclasses.  We
embed the Python regular expressions as an abstract syntax tree `RE` whose
matcher `rmatch` decides exact (whole-list) matching by Brzozowski
derivatives, and embed marshmallow's `Regexp.__call__` (which uses Python
`re.match`) as `matchDollar`: anchored at the start by `re.match`, with the
pattern's final `$` matching at the end of the string or just before a
single trailing newline, as documented for Python `re`.

Character classes are Boolean predicates on `Char`.  The `\d` class of the
datetime pattern is the full set of Unicode decimal digits (category Nd),
as Python's `\d` matches for a `str` pattern; explicit classes such as
`[0-9]` stay ASCII, as in Python.
-/

namespace Valid

/-- Regular-expression syntax mirroring the Python `re` patterns of
valid.py: `rep a lo hi` is the bounded repetition `a{lo,hi}`, `opt` is `?`,
`star` is `*`, and classes are predicates on characters. -/
inductive RE where
  | eps : RE
  | cls : (Char → Bool) → RE
  | seq : RE → RE → RE
  | alt : RE → RE → RE
  | star : RE → RE
  | rep : RE → Nat → Nat → RE
  | opt : RE → RE

/-- The never-matching expression (used as the failed derivative). -/
def refail : RE := .cls fun _ => false

/-- A literal character. -/
def reChr (c : Char) : RE := .cls fun d => d == c

/-- A literal word, one `reChr` per character. -/
def reWord : List Char → RE
  | [] => .eps
  | c :: cs => .seq (reChr c) (reWord cs)

/-- One-or-more repetition (the regex `+` operator). -/
def rePlus (a : RE) : RE := .seq a (.star a)

/-- Does the expression match the empty word?  (Every `rep` body in the
patterns below is a single-character class, so `rep` is nullable exactly
when its lower bound is 0.) -/
def nullable : RE → Bool
  | .eps => true
  | .cls _ => false
  | .seq a b => nullable a && nullable b
  | .alt a b => nullable a || nullable b
  | .star _ => true
  | .rep _ lo _ => lo == 0
  | .opt _ => true

/-- Brzozowski derivative: the residual expression after consuming `c`. -/
def deriv : RE → Char → RE
  | .eps, _ => refail
  | .cls p, c => if p c then .eps else refail
  | .seq a b, c =>
      if nullable a then .alt (.seq (deriv a c) b) (deriv b c)
      else .seq (deriv a c) b
  | .alt a b, c => .alt (deriv a c) (deriv b c)
  | .star a, c => .seq (deriv a c) (.star a)
  | .rep a lo hi, c =>
      if hi == 0 then refail else .seq (deriv a c) (.rep a (lo - 1) (hi - 1))
  | .opt a, c => deriv a c

/-- Exact whole-list matching by iterated derivatives. -/
def rmatch (r : RE) : List Char → Bool
  | [] => nullable r
  | c :: s => rmatch (deriv r c) s

theorem rmatch_nil (r : RE) : rmatch r [] = nullable r := rfl

theorem rmatch_cons (r : RE) (c : Char) (l : List Char) :
    rmatch r (c :: l) = rmatch (deriv r c) l := rfl

theorem rmatch_refail (l : List Char) : rmatch refail l = false := by
  induction l with
  | nil => rfl
  | cons c t ih => simpa [rmatch, deriv, refail] using ih

theorem rmatch_eps (l : List Char) : rmatch .eps l = true ↔ l = [] := by
  cases l with
  | nil => simp [rmatch, nullable]
  | cons c t => simp [rmatch, deriv, rmatch_refail]

theorem rmatch_cls (p : Char → Bool) (l : List Char) :
    rmatch (.cls p) l = true ↔ ∃ c, l = [c] ∧ p c = true := by
  cases l with
  | nil => simp [rmatch, nullable]
  | cons c t =>
    rw [rmatch_cons]
    show rmatch (if p c then RE.eps else refail) t = true ↔ _
    by_cases h : p c = true
    · rw [if_pos h, rmatch_eps]
      constructor
      · rintro rfl
        exact ⟨c, rfl, h⟩
      · rintro ⟨d, hd, _⟩
        cases hd
        rfl
    · rw [if_neg h, rmatch_refail]
      constructor
      · intro hf
        cases hf
      · rintro ⟨d, hd, hpd⟩
        cases hd
        exact absurd hpd h

theorem rmatch_alt (a b : RE) (l : List Char) :
    rmatch (.alt a b) l = (rmatch a l || rmatch b l) := by
  induction l generalizing a b with
  | nil => rfl
  | cons c t ih => simpa [rmatch, deriv] using ih (deriv a c) (deriv b c)

theorem rmatch_seq (a b : RE) (l : List Char) :
    rmatch (.seq a b) l = true ↔
      ∃ u v, l = u ++ v ∧ rmatch a u = true ∧ rmatch b v = true := by
  induction l generalizing a b with
  | nil =>
    rw [rmatch_nil]
    simp only [nullable, Bool.and_eq_true]
    constructor
    · rintro ⟨ha, hb⟩
      exact ⟨[], [], rfl, ha, hb⟩
    · rintro ⟨u, v, huv, hu, hv⟩
      obtain ⟨rfl, rfl⟩ := List.append_eq_nil.mp huv.symm
      exact ⟨hu, hv⟩
  | cons c t ih =>
    rw [rmatch_cons]
    show rmatch (if nullable a then RE.alt (RE.seq (deriv a c) b) (deriv b c)
      else RE.seq (deriv a c) b) t = true ↔ _
    by_cases h : nullable a = true
    · rw [if_pos h, rmatch_alt, Bool.or_eq_true]
      constructor
      · rintro (hl | hr)
        · obtain ⟨u, v, rfl, hu, hv⟩ := (ih (deriv a c) b).mp hl
          exact ⟨c :: u, v, rfl, hu, hv⟩
        · exact ⟨[], c :: t, rfl, by rw [rmatch_nil]; exact h, hr⟩
      · rintro ⟨u, v, huv, hu, hv⟩
        cases u with
        | nil =>
          right
          cases huv
          exact hv
        | cons c2 u2 =>
          left
          rw [List.cons_append] at huv
          injection huv with h1 h2
          subst h1
          subst h2
          exact (ih (deriv a c) b).mpr ⟨u2, v, rfl, hu, hv⟩
    · rw [if_neg h, ih]
      constructor
      · rintro ⟨u, v, rfl, hu, hv⟩
        exact ⟨c :: u, v, rfl, hu, hv⟩
      · rintro ⟨u, v, huv, hu, hv⟩
        cases u with
        | nil =>
          cases huv
          rw [rmatch_nil] at hu
          exact absurd hu h
        | cons c2 u2 =>
          rw [List.cons_append] at huv
          injection huv with h1 h2
          subst h1
          subst h2
          exact ⟨u2, v, rfl, hu, hv⟩

theorem rmatch_opt (a : RE) (l : List Char) :
    rmatch (.opt a) l = true ↔ l = [] ∨ rmatch a l = true := by
  cases l with
  | nil => simp [rmatch, nullable]
  | cons c t =>
    rw [rmatch_cons]
    show rmatch (deriv a c) t = true ↔ _
    rw [show rmatch (deriv a c) t = rmatch a (c :: t) from rfl]
    simp

theorem rmatch_star_cls (p : Char → Bool) (l : List Char) :
    rmatch (.star (.cls p)) l = true ↔ l.all p = true := by
  induction l with
  | nil => simp [rmatch, nullable]
  | cons c t ih =>
    rw [rmatch_cons]
    show rmatch (RE.seq (if p c then RE.eps else refail)
      (RE.star (RE.cls p))) t = true ↔ _
    by_cases h : p c = true
    · rw [if_pos h, rmatch_seq]
      constructor
      · rintro ⟨u, v, huv, hu, hv⟩
        obtain rfl := (rmatch_eps u).mp hu
        rw [List.nil_append] at huv
        subst huv
        simp only [List.all_cons, h, Bool.true_and]
        exact ih.mp hv
      · intro hall
        simp only [List.all_cons, h, Bool.true_and] at hall
        exact ⟨[], t, rfl, rfl, ih.mpr hall⟩
    · rw [if_neg h]
      constructor
      · intro hf
        obtain ⟨u, v, _, hu, _⟩ := (rmatch_seq _ _ t).mp hf
        rw [rmatch_refail] at hu
        cases hu
      · intro hall
        simp only [List.all_cons, Bool.and_eq_true] at hall
        exact absurd hall.1 h

theorem rmatch_rep_cls (p : Char → Bool) (lo hi : Nat) (l : List Char) :
    rmatch (.rep (.cls p) lo hi) l = true ↔
      lo ≤ l.length ∧ l.length ≤ hi ∧ l.all p = true := by
  induction l generalizing lo hi with
  | nil =>
    simp only [rmatch_nil, nullable, List.length_nil, List.all_nil,
      beq_iff_eq, and_true]
    omega
  | cons c t ih =>
    rw [rmatch_cons]
    show rmatch (if (hi == 0) then refail else RE.seq
      (if p c then RE.eps else refail)
      (RE.rep (RE.cls p) (lo - 1) (hi - 1))) t = true ↔ _
    by_cases hhi : hi = 0
    · rw [if_pos (by simpa using hhi), rmatch_refail]
      subst hhi
      constructor
      · intro hf
        cases hf
      · rintro ⟨_, h2, _⟩
        simp only [List.length_cons] at h2
        omega
    · rw [if_neg (by simpa using hhi)]
      by_cases hp : p c = true
      · rw [if_pos hp, rmatch_seq]
        constructor
        · rintro ⟨u, v, huv, hu, hv⟩
          obtain rfl := (rmatch_eps u).mp hu
          rw [List.nil_append] at huv
          subst huv
          obtain ⟨h1, h2, h3⟩ := (ih (lo - 1) (hi - 1)).mp hv
          simp only [List.length_cons, List.all_cons, hp, Bool.true_and]
          exact ⟨by omega, by omega, h3⟩
        · rintro ⟨h1, h2, h3⟩
          simp only [List.length_cons] at h1 h2
          simp only [List.all_cons, hp, Bool.true_and] at h3
          exact ⟨[], t, rfl, rfl,
            (ih (lo - 1) (hi - 1)).mpr ⟨by omega, by omega, h3⟩⟩
      · rw [if_neg hp]
        constructor
        · intro hf
          obtain ⟨u, v, _, hu, _⟩ := (rmatch_seq _ _ t).mp hf
          rw [rmatch_refail] at hu
          cases hu
        · rintro ⟨_, _, h3⟩
          simp only [List.all_cons, Bool.and_eq_true] at h3
          exact absurd h3.1 hp

theorem rmatch_word (w l : List Char) :
    rmatch (reWord w) l = true ↔ l = w := by
  induction w generalizing l with
  | nil => simpa [reWord] using rmatch_eps l
  | cons c cs ih =>
    simp only [reWord]
    rw [rmatch_seq]
    constructor
    · rintro ⟨u, v, rfl, hu, hv⟩
      obtain ⟨d, rfl, hd⟩ := (rmatch_cls _ u).mp hu
      obtain rfl := (ih v).mp hv
      have hdc : d = c := by simpa using hd
      subst hdc
      rfl
    · rintro rfl
      exact ⟨[c], cs, rfl, (rmatch_cls _ _).mpr ⟨c, rfl, by simp⟩,
        (ih cs).mpr rfl⟩

theorem rmatch_plus_cls (p : Char → Bool) (l : List Char) :
    rmatch (rePlus (.cls p)) l = true ↔ l ≠ [] ∧ l.all p = true := by
  rw [rePlus, rmatch_seq]
  constructor
  · rintro ⟨u, v, rfl, hu, hv⟩
    obtain ⟨c, rfl, hc⟩ := (rmatch_cls _ u).mp hu
    refine ⟨by simp, ?_⟩
    simp only [List.cons_append, List.all_cons, List.nil_append, hc,
      Bool.true_and]
    exact (rmatch_star_cls p v).mp hv
  · rintro ⟨hne, hall⟩
    cases l with
    | nil => exact absurd rfl hne
    | cons c t =>
      simp only [List.all_cons, Bool.and_eq_true] at hall
      exact ⟨[c], t, rfl, (rmatch_cls _ _).mpr ⟨c, rfl, hall.1⟩,
        (rmatch_star_cls p t).mpr hall.2⟩

end Valid

namespace Valid

/-! ## The embedded validators of valid.py -/

/-- The base58 alphabet of the `base58` package (module constant `B58`):
the Bitcoin alphabet, i.e. digits and letters without 0, O, I, l. -/
def B58 : String := "123456789ABCDEFGHJKLMNPQRSTUVWXYZabcdefghijkmnopqrstuvwxyz"

/-- Membership in the character class `[{B58}]`. -/
def isB58 (c : Char) : Bool := B58.toList.contains c

/-- The character class `[1-9]`. -/
def isDigit19 (c : Char) : Bool := decide ('1' ≤ c) && decide (c ≤ '9')

/-- The character class `[0-9.]` of the version / schema-version segments. -/
def isVerChar (c : Char) : Bool := c.isDigit || c == '.'

/-- The character class `[a-zA-Z0-9+/]` of the base64 pattern. -/
def isB64 (c : Char) : Bool := c.isAlphanum || c == '+' || c == '/'

/-- The character class `[a-fA-F0-9+/]` of the SHA-256 pattern. -/
def isHexPlus (c : Char) : Bool :=
  (decide ('a' ≤ c) && decide (c ≤ 'f')) ||
  (decide ('A' ≤ c) && decide (c ≤ 'F')) || c.isDigit || c == '+' || c == '/'

/-- The metacharacter `.`: any character except a newline. -/
def notNL (c : Char) : Bool := c != '\n'

/-- The character class `[T ]` between date and time. -/
def isTSep (c : Char) : Bool := c == 'T' || c == ' '

/-- The character class `[+-]` starting a timezone offset. -/
def isSign (c : Char) : Bool := c == '+' || c == '-'

/-- marshmallow `Regexp.__call__` for the patterns of valid.py: Python
`re.match` anchors the pattern at the start of the string, and each
pattern's final `$` matches at the end of the string or just before a
single trailing newline, so the value is accepted iff the pattern matches
the whole string or the whole string minus one final newline. -/
def matchDollar (p : RE) (s : String) : Bool :=
  rmatch (.seq p (.opt (reChr '\n'))) s.toList

/-- The pattern of `IndyDID`: `^[{B58}]{21,22}$`. -/
def IndyDID.pattern : RE := .rep (.cls isB58) 21 22

/-- `IndyDID` validation. -/
def IndyDID.validate (value : String) : Bool := matchDollar IndyDID.pattern value

def IndyDID.EXAMPLE : String := "WgWxqztrNooG92RXvxSTWv"

def IndyDID.error : String :=
  "Value {input} is not an indy decentralized identifier (DID)."

/-- The pattern of `IndyCredDefId` (anchored at the start by `re.match`):
`([{B58}]{21,22}):3:CL:(([1-9][0-9]*)|([{B58}]{21,22}:2:.+:[0-9.]+))(.+)?$`. -/
def IndyCredDefId.pattern : RE :=
  .seq (.rep (.cls isB58) 21 22)
    (.seq (reWord (":3:CL:".toList))
      (.seq (.alt (.seq (.cls isDigit19) (.star (.cls Char.isDigit)))
                  (.seq (.rep (.cls isB58) 21 22)
                    (.seq (reWord (":2:".toList))
                      (.seq (rePlus (.cls notNL))
                        (.seq (reChr ':') (rePlus (.cls isVerChar)))))))
        (.opt (rePlus (.cls notNL)))))

/-- `IndyCredDefId` validation. -/
def IndyCredDefId.validate (value : String) : Bool :=
  matchDollar IndyCredDefId.pattern value

def IndyCredDefId.EXAMPLE : String := "WgWxqztrNooG92RXvxSTWv:3:CL:20:tag"

def IndyCredDefId.error : String :=
  "Value {input} is not an indy credential definition identifier."

/-- The pattern of `IndyVersion`: `^[0-9.]+$`. -/
def IndyVersion.pattern : RE := rePlus (.cls isVerChar)

/-- `IndyVersion` validation. -/
def IndyVersion.validate (value : String) : Bool :=
  matchDollar IndyVersion.pattern value

def IndyVersion.EXAMPLE : String := "1.0"

def IndyVersion.error : String :=
  "Value {input} is not an indy version (use only digits and \x27.\x27)."

/-- The pattern of `IndySchemaId`: `^[{B58}]{21,22}:2:.+:[0-9.]+$`. -/
def IndySchemaId.pattern : RE :=
  .seq (.rep (.cls isB58) 21 22)
    (.seq (reWord (":2:".toList))
      (.seq (rePlus (.cls notNL))
        (.seq (reChr ':') (rePlus (.cls isVerChar)))))

/-- `IndySchemaId` validation. -/
def IndySchemaId.validate (value : String) : Bool :=
  matchDollar IndySchemaId.pattern value

def IndySchemaId.EXAMPLE : String := "WgWxqztrNooG92RXvxSTWv:2:schema_name:1.0"

def IndySchemaId.error : String :=
  "Value {input} is not an indy schema identifier."

/-- `IndyPredicate` is a marshmallow `OneOf` over these choices. -/
def IndyPredicate.choices : List String := ["<", "<=", ">=", ">"]

/-- `IndyPredicate` validation (`OneOf.__call__`: accepted iff the value is
a member of the choices, compared by exact equality). -/
def IndyPredicate.validate (value : String) : Bool :=
  IndyPredicate.choices.contains value

def IndyPredicate.EXAMPLE : String := ">="

def IndyPredicate.error : String := "Value {input} must be one of {choices}."

/-- The code-point ranges of the Unicode decimal-digit category Nd: for a
`str` pattern, Python's `\d` (with no `re.ASCII` flag, as in valid.py)
matches exactly these characters.  Each pair is an inclusive range; the
table was checked range-for-range against CPython's `\d` over the whole
code-point space (Unicode 14.0). -/
def ndRanges : List (Nat × Nat) :=
  [(0x30, 0x39), (0x660, 0x669), (0x6F0, 0x6F9), (0x7C0, 0x7C9),
   (0x966, 0x96F), (0x9E6, 0x9EF), (0xA66, 0xA6F), (0xAE6, 0xAEF),
   (0xB66, 0xB6F), (0xBE6, 0xBEF), (0xC66, 0xC6F), (0xCE6, 0xCEF),
   (0xD66, 0xD6F), (0xDE6, 0xDEF), (0xE50, 0xE59), (0xED0, 0xED9),
   (0xF20, 0xF29), (0x1040, 0x1049), (0x1090, 0x1099), (0x17E0, 0x17E9),
   (0x1810, 0x1819), (0x1946, 0x194F), (0x19D0, 0x19D9), (0x1A80, 0x1A89),
   (0x1A90, 0x1A99), (0x1B50, 0x1B59), (0x1BB0, 0x1BB9), (0x1C40, 0x1C49),
   (0x1C50, 0x1C59), (0xA620, 0xA629), (0xA8D0, 0xA8D9), (0xA900, 0xA909),
   (0xA9D0, 0xA9D9), (0xA9F0, 0xA9F9), (0xAA50, 0xAA59), (0xABF0, 0xABF9),
   (0xFF10, 0xFF19), (0x104A0, 0x104A9), (0x10D30, 0x10D39),
   (0x11066, 0x1106F), (0x110F0, 0x110F9), (0x11136, 0x1113F),
   (0x111D0, 0x111D9), (0x112F0, 0x112F9), (0x11450, 0x11459),
   (0x114D0, 0x114D9), (0x11650, 0x11659), (0x116C0, 0x116C9),
   (0x11730, 0x11739), (0x118E0, 0x118E9), (0x11950, 0x11959),
   (0x11C50, 0x11C59), (0x11D50, 0x11D59), (0x11DA0, 0x11DA9),
   (0x16A60, 0x16A69), (0x16AC0, 0x16AC9), (0x16B50, 0x16B59),
   (0x1D7CE, 0x1D7FF), (0x1E140, 0x1E149), (0x1E2F0, 0x1E2F9),
   (0x1E950, 0x1E959), (0x1FBF0, 0x1FBF9)]

/-- The metacharacter `\d` of a Python `str` pattern: any Unicode decimal
digit (category Nd). -/
def isPyDigit (c : Char) : Bool :=
  ndRanges.any fun r => r.1 ≤ c.toNat && c.toNat ≤ r.2

/-- The pattern of `IndyISO8601DateTime`:
`^(\d{4})-(\d\d)-(\d\d)[T ](\d\d):(\d\d)(?:\:(\d\d(?:\.\d{1,6})?))?([+-]\d\d:?\d\d|Z)$`,
with `\d` the Unicode decimal digits (`isPyDigit`). -/
def IndyISO8601DateTime.pattern : RE :=
  .seq (.rep (.cls isPyDigit) 4 4)
  (.seq (reChr '-') (.seq (.rep (.cls isPyDigit) 2 2)
  (.seq (reChr '-') (.seq (.rep (.cls isPyDigit) 2 2)
  (.seq (.cls isTSep) (.seq (.rep (.cls isPyDigit) 2 2)
  (.seq (reChr ':') (.seq (.rep (.cls isPyDigit) 2 2)
  (.seq (.opt (.seq (reChr ':') (.seq (.rep (.cls isPyDigit) 2 2)
                 (.opt (.seq (reChr '.') (.rep (.cls isPyDigit) 1 6))))))
        (.alt (.seq (.cls isSign) (.seq (.rep (.cls isPyDigit) 2 2)
                 (.seq (.opt (reChr ':')) (.rep (.cls isPyDigit) 2 2))))
              (reChr 'Z')))))))))))

/-- `IndyISO8601DateTime` validation. -/
def IndyISO8601DateTime.validate (value : String) : Bool :=
  matchDollar IndyISO8601DateTime.pattern value

def IndyISO8601DateTime.error : String :=
  "Value {input} is not a date in valid format."

/-- The pattern of `Base64` (the regex stage): `^[a-zA-Z0-9+/]*={0,2}$`. -/
def Base64.pattern : RE := .seq (.star (.cls isB64)) (.rep (reChr '=') 0 2)

/-- `Base64.__call__`: rejects a missing value or a length that is not a
multiple of 4 before ever consulting the regex; otherwise defers to the
`Regexp` stage. -/
def Base64.validate (value : Option String) : Bool :=
  match value with
  | none => false
  | some s => if s.length % 4 != 0 then false else matchDollar Base64.pattern s

def Base64.EXAMPLE : String := "ey4uLn0="

def Base64.error : String := "Value is not a valid base64 encoding"

/-- The pattern of `SHA256Hash`: `^[a-fA-F0-9+/]{64}$`. -/
def SHA256Hash.pattern : RE := .rep (.cls isHexPlus) 64 64

/-- `SHA256Hash` validation. -/
def SHA256Hash.validate (value : String) : Bool :=
  matchDollar SHA256Hash.pattern value

def SHA256Hash.EXAMPLE : String :=
  "617a48c7c8afe0521efdc03e5bb0ad9e655893e6b4b51f0e794d70fba132aacb"

def SHA256Hash.error : String :=
  "Value is not a valid (binhex-encoded) SHA-256 hash"

/-- `IntEpoch` is a marshmallow `Range` with these inclusive bounds. -/
def IntEpoch.minVal : Int := 0

def IntEpoch.maxVal : Int := 2147483647

/-- `IntEpoch` validation (`Range.__call__`: rejected iff the value is
below the minimum or above the maximum, both inclusive). -/
def IntEpoch.validate (value : Int) : Bool :=
  decide (IntEpoch.minVal ≤ value) && decide (value ≤ IntEpoch.maxVal)

/-- `IntEpoch.EXAMPLE` is `int(datetime.now().timestamp())`: the current
epoch second, a value fixed only at process start, here a parameter. -/
def IntEpoch.EXAMPLE (now : Int) : Int := now

def IntEpoch.error : String := "Value {input} is not a valid integer epoch time."

end Valid

namespace Valid

/-! ## Characterizations of the matcher on the shapes used by the patterns -/

theorem rmatch_chr (c : Char) (l : List Char) :
    rmatch (reChr c) l = true ↔ l = [c] := by
  rw [reChr, rmatch_cls]
  constructor
  · rintro ⟨d, rfl, hd⟩
    have : d = c := by simpa using hd
    subst this
    rfl
  · rintro rfl
    exact ⟨c, rfl, by simp⟩

theorem rmatch_seq_chr (c : Char) (r : RE) (l : List Char) :
    rmatch (.seq (reChr c) r) l = true ↔ ∃ t, l = c :: t ∧ rmatch r t = true := by
  rw [rmatch_seq]
  constructor
  · rintro ⟨u, v, rfl, hu, hv⟩
    obtain rfl := (rmatch_chr c u).mp hu
    exact ⟨v, rfl, hv⟩
  · rintro ⟨t, rfl, ht⟩
    exact ⟨[c], t, rfl, (rmatch_chr c _).mpr rfl, ht⟩

theorem rmatch_seq_cls (p : Char → Bool) (r : RE) (l : List Char) :
    rmatch (.seq (.cls p) r) l = true ↔
      ∃ c t, l = c :: t ∧ p c = true ∧ rmatch r t = true := by
  rw [rmatch_seq]
  constructor
  · rintro ⟨u, v, rfl, hu, hv⟩
    obtain ⟨c, rfl, hc⟩ := (rmatch_cls p u).mp hu
    exact ⟨c, v, rfl, hc, hv⟩
  · rintro ⟨c, t, rfl, hc, ht⟩
    exact ⟨[c], t, rfl, (rmatch_cls p _).mpr ⟨c, rfl, hc⟩, ht⟩

theorem rmatch_seq_rep_cls (p : Char → Bool) (lo hi : Nat) (r : RE)
    (l : List Char) :
    rmatch (.seq (.rep (.cls p) lo hi) r) l = true ↔
      ∃ u t, l = u ++ t ∧ lo ≤ u.length ∧ u.length ≤ hi ∧ u.all p = true ∧
        rmatch r t = true := by
  rw [rmatch_seq]
  constructor
  · rintro ⟨u, v, rfl, hu, hv⟩
    obtain ⟨h1, h2, h3⟩ := (rmatch_rep_cls p lo hi u).mp hu
    exact ⟨u, v, rfl, h1, h2, h3, hv⟩
  · rintro ⟨u, t, rfl, h1, h2, h3, ht⟩
    exact ⟨u, t, rfl, (rmatch_rep_cls p lo hi u).mpr ⟨h1, h2, h3⟩, ht⟩

theorem rmatch_seq_word (w : List Char) (r : RE) (l : List Char) :
    rmatch (.seq (reWord w) r) l = true ↔ ∃ t, l = w ++ t ∧ rmatch r t = true := by
  rw [rmatch_seq]
  constructor
  · rintro ⟨u, v, rfl, hu, hv⟩
    obtain rfl := (rmatch_word w u).mp hu
    exact ⟨v, rfl, hv⟩
  · rintro ⟨t, rfl, ht⟩
    exact ⟨w, t, rfl, (rmatch_word w w).mpr rfl, ht⟩

theorem rmatch_seq_plus_cls (p : Char → Bool) (r : RE) (l : List Char) :
    rmatch (.seq (rePlus (.cls p)) r) l = true ↔
      ∃ u t, l = u ++ t ∧ u ≠ [] ∧ u.all p = true ∧ rmatch r t = true := by
  rw [rmatch_seq]
  constructor
  · rintro ⟨u, v, rfl, hu, hv⟩
    obtain ⟨h1, h2⟩ := (rmatch_plus_cls p u).mp hu
    exact ⟨u, v, rfl, h1, h2, hv⟩
  · rintro ⟨u, t, rfl, h1, h2, ht⟩
    exact ⟨u, t, rfl, (rmatch_plus_cls p u).mpr ⟨h1, h2⟩, ht⟩

/-- What acceptance by a valid.py `Regexp` validator means: some prefix of
the value matches the pattern and what is left over for the `$` anchor is
nothing, or exactly one final newline. -/
theorem matchDollar_iff (p : RE) (s : String) :
    matchDollar p s = true ↔
      ∃ u v, s.toList = u ++ v ∧ rmatch p u = true ∧ (v = [] ∨ v = ['\n']) := by
  rw [matchDollar, rmatch_seq]
  constructor
  · rintro ⟨u, v, h, hu, hv⟩
    refine ⟨u, v, h, hu, ?_⟩
    rcases (rmatch_opt _ v).mp hv with h0 | h1
    · exact Or.inl h0
    · exact Or.inr ((rmatch_chr _ v).mp h1)
  · rintro ⟨u, v, h, hu, hv⟩
    refine ⟨u, v, h, hu, (rmatch_opt _ v).mpr ?_⟩
    rcases hv with rfl | rfl
    · exact Or.inl rfl
    · exact Or.inr ((rmatch_chr _ _).mpr rfl)

/-- Acceptance by the DID validator, characterized structurally. -/
theorem did_accept_iff (s : String) :
    IndyDID.validate s = true ↔
      ∃ u v, s.toList = u ++ v ∧ 21 ≤ u.length ∧ u.length ≤ 22 ∧
        u.all isB58 = true ∧ (v = [] ∨ v = ['\n']) := by
  rw [IndyDID.validate, matchDollar_iff]
  constructor
  · rintro ⟨u, v, h, hu, hv⟩
    obtain ⟨h1, h2, h3⟩ := (rmatch_rep_cls _ _ _ u).mp hu
    exact ⟨u, v, h, h1, h2, h3, hv⟩
  · rintro ⟨u, v, h, h1, h2, h3, hv⟩
    exact ⟨u, v, h, (rmatch_rep_cls _ _ _ u).mpr ⟨h1, h2, h3⟩, hv⟩

/-- The `={0,2}` tail of the base64 pattern matches exactly the three
explicit padding possibilities. -/
theorem eqpad_cases (l : List Char) :
    (l.length ≤ 2 ∧ l.all (fun d => d == '=') = true) ↔
      (l = [] ∨ l = ['='] ∨ l = ['=', '=']) := by
  constructor
  · rintro ⟨hl, ha⟩
    match l, hl, ha with
    | [], _, _ => exact Or.inl rfl
    | [a], _, ha =>
      have : a = '=' := by simpa using ha
      subst this
      exact Or.inr (Or.inl rfl)
    | [a, b], _, ha =>
      obtain ⟨ha1, ha2⟩ : (a == '=') = true ∧ (b == '=') = true := by
        simpa using ha
      have : a = '=' := by simpa using ha1
      subst this
      have : b = '=' := by simpa using ha2
      subst this
      exact Or.inr (Or.inr rfl)
  · rintro (rfl | rfl | rfl) <;> exact ⟨by simp, by decide⟩

/-- Acceptance by the regex stage of the base64 validator. -/
theorem Base64.core_iff (l : List Char) :
    rmatch Base64.pattern l = true ↔
      ∃ u e, l = u ++ e ∧ u.all isB64 = true ∧
        (e = [] ∨ e = ['='] ∨ e = ['=', '=']) := by
  rw [Base64.pattern, rmatch_seq]
  constructor
  · rintro ⟨u, v, rfl, hu, hv⟩
    obtain ⟨_, h2, h3⟩ := (rmatch_rep_cls _ _ _ v).mp hv
    exact ⟨u, v, rfl, (rmatch_star_cls _ u).mp hu, (eqpad_cases v).mp ⟨h2, h3⟩⟩
  · rintro ⟨u, e, rfl, hu, he⟩
    obtain ⟨h2, h3⟩ := (eqpad_cases e).mpr he
    exact ⟨u, e, rfl, (rmatch_star_cls _ u).mpr hu,
      (rmatch_rep_cls _ _ _ e).mpr ⟨by omega, h2, h3⟩⟩

/-- Acceptance by the SHA-256 validator, characterized structurally. -/
theorem sha256_accept_iff (s : String) :
    SHA256Hash.validate s = true ↔
      ∃ u v, s.toList = u ++ v ∧ u.length = 64 ∧ u.all isHexPlus = true ∧
        (v = [] ∨ v = ['\n']) := by
  rw [SHA256Hash.validate, matchDollar_iff]
  constructor
  · rintro ⟨u, v, h, hu, hv⟩
    obtain ⟨h1, h2, h3⟩ := (rmatch_rep_cls _ _ _ u).mp hu
    exact ⟨u, v, h, by omega, h3, hv⟩
  · rintro ⟨u, v, h, h1, h3, hv⟩
    exact ⟨u, v, h, (rmatch_rep_cls _ _ _ u).mpr ⟨by omega, by omega, h3⟩, hv⟩

/-! ## Substring checking for the error-message templates -/

/-- Is `pat` a prefix of `l`? -/
def charsPre : List Char → List Char → Bool
  | [], _ => true
  | _ :: _, [] => false
  | p :: ps, c :: cs => p == c && charsPre ps cs

/-- Does `l` contain `pat` as a contiguous substring? -/
def charsSub (pat : List Char) : List Char → Bool
  | [] => charsPre pat []
  | c :: cs => charsPre pat (c :: cs) || charsSub pat cs

/-- Does the template string `t` contain the substring `pat` (used to check
for the substitution points of the error templates)? -/
def hasSub (t pat : String) : Bool := charsSub pat.toList t.toList

end Valid

namespace Valid

/-! ## Claims C1, C3, C4, C6, C7, C8 -/

/-- C1, counterexample: the Base64 validator accepts `"abc\n"` (length 4,
a multiple of 4), although that value does not match the anchored grammar
`[a-zA-Z0-9+/]*` followed by 0-2 padding characters: the Python `$` also
matches just before the trailing newline. -/
theorem claim1_base64_counterexample :
    Base64.validate (some "abc\n") = true ∧
    rmatch Base64.pattern ("abc\n".toList) = false := by
  exact ⟨by decide, by decide⟩

/-- C1, as amended: `validate` fails on a missing value, fails whenever the
length is not a multiple of 4 (independent of content), and otherwise
succeeds iff the value is base64 characters, then 0-2 padding `=`, then
optionally one final newline (the Python `$` concession); the empty string
succeeds, `"ab"` fails and `"ey4uLn0="` succeeds. -/
theorem claim1_base64_two_stage :
    Base64.validate none = false ∧
    (∀ s : String, s.length % 4 ≠ 0 → Base64.validate (some s) = false) ∧
    (∀ s : String, Base64.validate (some s) = true ↔
      s.length % 4 = 0 ∧ ∃ u e n, s.toList = (u ++ e) ++ n ∧
        u.all isB64 = true ∧ (e = [] ∨ e = ['='] ∨ e = ['=', '=']) ∧
        (n = [] ∨ n = ['\n'])) ∧
    Base64.validate (some "") = true ∧
    Base64.validate (some "ab") = false ∧
    Base64.validate (some "ey4uLn0=") = true := by
  refine ⟨rfl, ?_, ?_, by decide, by decide, by decide⟩
  · intro s h
    simp only [Base64.validate]
    rw [if_pos (by simpa using h)]
  · intro s
    by_cases hm : s.length % 4 = 0
    · have hval : Base64.validate (some s) = matchDollar Base64.pattern s := by
        simp only [Base64.validate]
        rw [if_neg (by simp [hm])]
      rw [hval, matchDollar_iff]
      constructor
      · rintro ⟨u2, v, hsplit, hcore, hv⟩
        obtain ⟨u, e, rfl, hu, he⟩ := (Base64.core_iff u2).mp hcore
        exact ⟨hm, u, e, v, hsplit, hu, he, hv⟩
      · rintro ⟨-, u, e, n, hsplit, hu, he, hn⟩
        exact ⟨u ++ e, n, hsplit,
          (Base64.core_iff _).mpr ⟨u, e, rfl, hu, he⟩, hn⟩
    · have hval : Base64.validate (some s) = false := by
        simp only [Base64.validate]
        rw [if_pos (by simpa using hm)]
      rw [hval]
      simp [hm]

/-- C3, counterexample: the DID validator accepts the 23-character string
`"WgWxqztrNooG92RXvxSTWv\n"`, which is not made of 21 or 22 base58
characters: the Python `$` also matches just before the trailing newline. -/
theorem claim3_did_counterexample :
    IndyDID.validate "WgWxqztrNooG92RXvxSTWv\n" = true ∧
    "WgWxqztrNooG92RXvxSTWv\n".length = 23 ∧
    "WgWxqztrNooG92RXvxSTWv\n".toList.all isB58 = false := by
  exact ⟨by decide, by decide, by decide⟩

/-- C3, as amended: the DID validator accepts a string iff it is 21 or 22
base58 characters, optionally followed by one final newline; the example
DID is accepted, every all-base58 string of length 20 or 23 is rejected,
and every string containing the non-base58 character `0` is rejected. -/
theorem claim3_did :
    IndyDID.validate "WgWxqztrNooG92RXvxSTWv" = true ∧
    (∀ s : String, IndyDID.validate s = true ↔
      ∃ u v, s.toList = u ++ v ∧ 21 ≤ u.length ∧ u.length ≤ 22 ∧
        u.all isB58 = true ∧ (v = [] ∨ v = ['\n'])) ∧
    (∀ s : String, s.toList.all isB58 = true → s.length = 20 →
      IndyDID.validate s = false) ∧
    (∀ s : String, s.toList.all isB58 = true → s.length = 23 →
      IndyDID.validate s = false) ∧
    (∀ s : String, '0' ∈ s.toList → IndyDID.validate s = false) := by
  refine ⟨by decide, fun s => did_accept_iff s, ?_, ?_, ?_⟩
  · intro s hall hlen
    cases hv : IndyDID.validate s with
    | false => rfl
    | true =>
      exfalso
      obtain ⟨u, v, hsplit, h1, h2, _, hv2⟩ := (did_accept_iff s).mp hv
      have hlen0 : s.toList.length = s.length := rfl
      have hl : s.toList.length = u.length + v.length := by
        rw [hsplit, List.length_append]
      rcases hv2 with rfl | rfl
      · simp only [List.length_nil] at hl
        omega
      · simp only [List.length_cons, List.length_nil] at hl
        omega
  · intro s hall hlen
    cases hv : IndyDID.validate s with
    | false => rfl
    | true =>
      exfalso
      obtain ⟨u, v, hsplit, h1, h2, _, hv2⟩ := (did_accept_iff s).mp hv
      have hlen0 : s.toList.length = s.length := rfl
      have hl : s.toList.length = u.length + v.length := by
        rw [hsplit, List.length_append]
      rcases hv2 with rfl | rfl
      · simp only [List.length_nil] at hl
        omega
      · have hmem : '\n' ∈ s.toList := by
          rw [hsplit]
          exact List.mem_append_right _ (by simp)
        have := List.all_eq_true.mp hall _ hmem
        exact absurd this (by decide)
  · intro s hmem
    cases hv : IndyDID.validate s with
    | false => rfl
    | true =>
      exfalso
      obtain ⟨u, v, hsplit, _, _, h3, hv2⟩ := (did_accept_iff s).mp hv
      rw [hsplit] at hmem
      rcases List.mem_append.mp hmem with hin | hin
      · exact absurd (List.all_eq_true.mp h3 _ hin) (by decide)
      · rcases hv2 with rfl | rfl
        · simp at hin
        · exact absurd hin (by decide)

/-- C4: the integer epoch validator accepts an integer iff it lies in the
inclusive range 0 to 2147483647; the four boundary probes behave as the
claim states. -/
theorem claim4_int_epoch :
    (∀ value : Int, IntEpoch.validate value = true ↔
      0 ≤ value ∧ value ≤ 2147483647) ∧
    IntEpoch.validate (-1) = false ∧
    IntEpoch.validate 0 = true ∧
    IntEpoch.validate 2147483647 = true ∧
    IntEpoch.validate 2147483648 = false := by
  refine ⟨?_, by decide, by decide, by decide, by decide⟩
  intro value
  simp [IntEpoch.validate, IntEpoch.minVal, IntEpoch.maxVal]

/-- C6, counterexample: the SHA-256 validator accepts a 65-character string
(64 class characters plus a trailing newline), so acceptance does not imply
a length of exactly 64: the Python `$` also matches just before the
trailing newline. -/
theorem claim6_sha256_counterexample :
    SHA256Hash.validate
      "617a48c7c8afe0521efdc03e5bb0ad9e655893e6b4b51f0e794d70fba132aacb\n"
      = true ∧
    "617a48c7c8afe0521efdc03e5bb0ad9e655893e6b4b51f0e794d70fba132aacb\n".length
      = 65 := by
  exact ⟨by decide, by decide⟩

/-- C6, as amended: the SHA-256 validator accepts a string iff it is
exactly 64 characters of the class a-f, A-F, 0-9, plus, slash, optionally
followed by one final newline; no decoding or byte-count check is done, so
a 64-character value containing plus or slash is accepted. -/
theorem claim6_sha256 :
    (∀ s : String, SHA256Hash.validate s = true ↔
      ∃ u v, s.toList = u ++ v ∧ u.length = 64 ∧ u.all isHexPlus = true ∧
        (v = [] ∨ v = ['\n'])) ∧
    SHA256Hash.validate
      "617a48c7c8afe0521efdc03e5bb0ad9e655893e6b4b51f0e794d70fba132aa+/"
      = true := by
  exact ⟨fun s => sha256_accept_iff s, by decide⟩

/-- C7: the predicate validator accepts exactly the four comparison
operators, by exact string equality; `"=="` is rejected, and the error
template names the choices list, which is exactly those four operators. -/
theorem claim7_predicate :
    (∀ s : String, IndyPredicate.validate s = true ↔
      s = "<" ∨ s = "<=" ∨ s = ">=" ∨ s = ">") ∧
    IndyPredicate.validate "<=" = true ∧
    IndyPredicate.validate "==" = false ∧
    IndyPredicate.choices = ["<", "<=", ">=", ">"] ∧
    hasSub IndyPredicate.error "{choices}" = true := by
  refine ⟨?_, by decide, by decide, rfl, by decide⟩
  intro s
  simp [IndyPredicate.validate, IndyPredicate.choices, List.contains]

/-- C8, counterexample: the SHA-256 validator's error template has no
substitution point for the rejected value, so not every identifier
validator embeds the rejected input in its failure message. -/
theorem claim8_error_counterexample :
    hasSub SHA256Hash.error "{input}" = false := by decide

/-- C8, as amended: of the identifier validators named by the claim, the
DID, schema-ID, credential-definition-ID, version and datetime error
templates each contain the input substitution point, but the hash
validator's template does not (its message is a fixed string). -/
theorem claim8_error_templates :
    hasSub IndyDID.error "{input}" = true ∧
    hasSub IndySchemaId.error "{input}" = true ∧
    hasSub IndyCredDefId.error "{input}" = true ∧
    hasSub IndyVersion.error "{input}" = true ∧
    hasSub IndyISO8601DateTime.error "{input}" = true ∧
    hasSub SHA256Hash.error "{input}" = false := by
  exact ⟨by decide, by decide, by decide, by decide, by decide, by decide⟩

end Valid

namespace Valid

/-! ## The credential-definition-id pattern, characterized -/

/-- The issuer-DID group of the credential-definition-id pattern. -/
def didChunk (u : List Char) : Prop :=
  21 ≤ u.length ∧ u.length ≤ 22 ∧ u.all isB58 = true

/-- The schema-transaction-number alternative of the schema reference. -/
def numChunk (l : List Char) : Prop :=
  ∃ c cs, l = c :: cs ∧ isDigit19 c = true ∧ cs.all Char.isDigit = true

/-- The full-schema-id alternative of the schema reference. -/
def sidChunk (l : List Char) : Prop :=
  ∃ d nm vr, l = d ++ ':' :: '2' :: ':' :: (nm ++ ':' :: vr) ∧
    didChunk d ∧ nm ≠ [] ∧ nm.all notNL = true ∧ vr ≠ [] ∧
    vr.all isVerChar = true

/-- The optional tag group `(.+)?` (note: no leading colon required). -/
def tagChunk (l : List Char) : Prop :=
  l = [] ∨ (l ≠ [] ∧ l.all notNL = true)

/-- Acceptance by the credential-definition-id validator, characterized
structurally: an issuer DID, the literal marker, a schema reference (either
alternative), the optional unrestricted tag, and the `$` concession. -/
theorem creddef_accept_iff (s : String) :
    IndyCredDefId.validate s = true ↔
      ∃ d sr tg nl,
        s.toList = d ++ ':' :: '3' :: ':' :: 'C' :: 'L' :: ':' ::
          (sr ++ (tg ++ nl)) ∧
        didChunk d ∧ (numChunk sr ∨ sidChunk sr) ∧ tagChunk tg ∧
        (nl = [] ∨ nl = ['\n']) := by
  rw [IndyCredDefId.validate, matchDollar_iff]
  constructor
  · rintro ⟨u, nl, hsplit, hm, hnl⟩
    rw [IndyCredDefId.pattern, rmatch_seq_rep_cls] at hm
    obtain ⟨d, t1, rfl, hd1, hd2, hd3, hm⟩ := hm
    rw [rmatch_seq_word] at hm
    obtain ⟨t2, rfl, hm⟩ := hm
    rw [rmatch_seq] at hm
    obtain ⟨sr, tg, rfl, hsr, htg⟩ := hm
    refine ⟨d, sr, tg, nl, ?_, ⟨hd1, hd2, hd3⟩, ?_, ?_, hnl⟩
    · rw [hsplit]
      simp only [List.append_assoc]
      rfl
    · rw [rmatch_alt, Bool.or_eq_true] at hsr
      rcases hsr with h | h
      · left
        rw [rmatch_seq_cls] at h
        obtain ⟨c, cs, rfl, hc, h⟩ := h
        exact ⟨c, cs, rfl, hc, (rmatch_star_cls _ cs).mp h⟩
      · right
        rw [rmatch_seq_rep_cls] at h
        obtain ⟨d2, r1, rfl, ha, hb, hc2, h⟩ := h
        rw [rmatch_seq_word] at h
        obtain ⟨r2, rfl, h⟩ := h
        rw [rmatch_seq_plus_cls] at h
        obtain ⟨nm, r3, rfl, hnm1, hnm2, h⟩ := h
        rw [rmatch_seq_chr] at h
        obtain ⟨vr, rfl, h⟩ := h
        rw [rmatch_plus_cls] at h
        exact ⟨d2, nm, vr, rfl, ⟨ha, hb, hc2⟩, hnm1, hnm2, h.1, h.2⟩
    · rcases (rmatch_opt _ tg).mp htg with h | h
      · exact Or.inl h
      · exact Or.inr ((rmatch_plus_cls _ tg).mp h)
  · rintro ⟨d, sr, tg, nl, hsplit, ⟨hd1, hd2, hd3⟩, hsr, htag, hnl⟩
    refine ⟨d ++ (":3:CL:".toList ++ (sr ++ tg)), nl, ?_, ?_, hnl⟩
    · rw [hsplit]
      simp only [List.append_assoc]
      rfl
    · rw [IndyCredDefId.pattern, rmatch_seq_rep_cls]
      refine ⟨d, ":3:CL:".toList ++ (sr ++ tg), rfl, hd1, hd2, hd3, ?_⟩
      rw [rmatch_seq_word]
      refine ⟨sr ++ tg, rfl, ?_⟩
      rw [rmatch_seq]
      refine ⟨sr, tg, rfl, ?_, ?_⟩
      · rw [rmatch_alt, Bool.or_eq_true]
        rcases hsr with ⟨c, cs, rfl, hc, hcs⟩ |
          ⟨d2, nm, vr, rfl, ⟨ha, hb, hc2⟩, hnm1, hnm2, hvr1, hvr2⟩
        · left
          rw [rmatch_seq_cls]
          exact ⟨c, cs, rfl, hc, (rmatch_star_cls _ cs).mpr hcs⟩
        · right
          rw [rmatch_seq_rep_cls]
          refine ⟨d2, ':' :: '2' :: ':' :: (nm ++ ':' :: vr), rfl,
            ha, hb, hc2, ?_⟩
          rw [rmatch_seq_word]
          refine ⟨nm ++ ':' :: vr, rfl, ?_⟩
          rw [rmatch_seq_plus_cls]
          refine ⟨nm, ':' :: vr, rfl, hnm1, hnm2, ?_⟩
          rw [rmatch_seq_chr]
          exact ⟨vr, rfl, (rmatch_plus_cls _ vr).mpr ⟨hvr1, hvr2⟩⟩
      · rcases htag with rfl | ⟨h1, h2⟩
        · exact (rmatch_opt _ _).mpr (Or.inl rfl)
        · exact (rmatch_opt _ _).mpr
            (Or.inr ((rmatch_plus_cls _ tg).mpr ⟨h1, h2⟩))

/-- Two all-base58 prefixes followed by a colon agree: base58 text cannot
contain the colon, so the first colon pins the split. -/
theorem b58_colon_split (d e xs ys : List Char)
    (hd : d.all isB58 = true) (he : e.all isB58 = true)
    (h : d ++ ':' :: xs = e ++ ':' :: ys) :
    d = e ∧ xs = ys := by
  induction d generalizing e with
  | nil =>
    cases e with
    | nil =>
      simp only [List.nil_append] at h
      injection h with h1 h2
      exact ⟨rfl, h2⟩
    | cons c es =>
      simp only [List.nil_append, List.cons_append] at h
      injection h with h1 h2
      rw [List.all_cons, Bool.and_eq_true] at he
      subst h1
      exact absurd he.1 (by decide)
  | cons a ds ih =>
    cases e with
    | nil =>
      simp only [List.cons_append, List.nil_append] at h
      injection h with h1 h2
      rw [List.all_cons, Bool.and_eq_true] at hd
      subst h1
      exact absurd hd.1 (by decide)
    | cons b es =>
      simp only [List.cons_append] at h
      injection h with h1 h2
      rw [List.all_cons, Bool.and_eq_true] at hd he
      subst h1
      obtain ⟨hde, hxy⟩ := ih es hd.2 he.2 h2
      exact ⟨by rw [hde], hxy⟩

/-! ## Claims C2 and C10 -/

/-- C2: the credential-definition-id validator accepts the documented
example; it rejects that string with the literal algorithm token CL
replaced by any other colon-free token; and it rejects every string of the
form DID-colon-3-colon-CL-colon-tag whose tail omits the schema reference,
i.e. whose tail contains no colon and does not start with a nonzero digit
(so it can start neither schema-reference alternative). -/
theorem claim2_creddef :
    IndyCredDefId.validate "WgWxqztrNooG92RXvxSTWv:3:CL:20:tag" = true ∧
    (∀ tok : List Char, tok ≠ ['C', 'L'] → (∀ c ∈ tok, c ≠ ':') →
      IndyCredDefId.validate (String.mk ("WgWxqztrNooG92RXvxSTWv".toList ++
        ':' :: '3' :: ':' ::
          (tok ++ [':', '2', '0', ':', 't', 'a', 'g']))) = false) ∧
    (∀ d tg : List Char, d.all isB58 = true →
      (∀ c ∈ tg, c ≠ ':') → (∀ c cs, tg = c :: cs → isDigit19 c = false) →
      IndyCredDefId.validate (String.mk (d ++
        ':' :: '3' :: ':' :: 'C' :: 'L' :: ':' :: tg)) = false) := by
  refine ⟨by decide, ?_, ?_⟩
  · intro tok htok hcol
    cases hv : IndyCredDefId.validate (String.mk
        ("WgWxqztrNooG92RXvxSTWv".toList ++ ':' :: '3' :: ':' ::
          (tok ++ [':', '2', '0', ':', 't', 'a', 'g']))) with
    | false => rfl
    | true =>
      exfalso
      obtain ⟨d, sr, tg, nl, heq, ⟨-, -, hd3⟩, hsr, htg, hnl⟩ :=
        (creddef_accept_iff _).mp hv
      have heq2 : d ++ ':' :: '3' :: ':' :: 'C' :: 'L' :: ':' ::
          (sr ++ (tg ++ nl)) = "WgWxqztrNooG92RXvxSTWv".toList ++
          ':' :: '3' :: ':' :: (tok ++ [':', '2', '0', ':', 't', 'a', 'g']) :=
        heq.symm
      obtain ⟨-, hxs⟩ := b58_colon_split d "WgWxqztrNooG92RXvxSTWv".toList
        _ _ hd3 (by decide) heq2
      injection hxs with h1 hxs
      injection hxs with h2 hxs
      rcases tok with _ | ⟨c, tok2⟩
      · simp only [List.nil_append] at hxs
        injection hxs with h3 hxs
        exact absurd h3 (by decide)
      rcases tok2 with _ | ⟨c2, rest⟩
      · simp only [List.cons_append, List.nil_append] at hxs
        injection hxs with h3 hxs
        injection hxs with h4 hxs
        exact absurd h4 (by decide)
      simp only [List.cons_append] at hxs
      injection hxs with h3 hxs
      injection hxs with h4 hxs
      cases rest with
      | nil =>
        subst h3
        subst h4
        exact htok rfl
      | cons r rs =>
        simp only [List.cons_append] at hxs
        injection hxs with h5 hxs
        exact hcol r (by simp) h5.symm
  · intro d0 tg0 hball hcol hd19
    cases hv : IndyCredDefId.validate (String.mk (d0 ++
        ':' :: '3' :: ':' :: 'C' :: 'L' :: ':' :: tg0)) with
    | false => rfl
    | true =>
      exfalso
      obtain ⟨d, sr, tg, nl, heq, ⟨-, -, hd3⟩, hsr, -, -⟩ :=
        (creddef_accept_iff _).mp hv
      have heq2 : d0 ++ ':' :: '3' :: ':' :: 'C' :: 'L' :: ':' :: tg0 =
          d ++ ':' :: '3' :: ':' :: 'C' :: 'L' :: ':' ::
            (sr ++ (tg ++ nl)) := heq
      obtain ⟨-, hxs⟩ := b58_colon_split d0 d _ _ hball hd3 heq2
      injection hxs with h1 hxs
      injection hxs with h2 hxs
      injection hxs with h3 hxs
      injection hxs with h4 hxs
      injection hxs with h5 hxs
      rcases hsr with ⟨c, cs, rfl, hc, -⟩ |
        ⟨d2, nm, vr, hsreq, -, -, -, -, -⟩
      · have hshape : tg0 = c :: (cs ++ (tg ++ nl)) := by simpa using hxs
        have hfalse := hd19 c (cs ++ (tg ++ nl)) hshape
        rw [hc] at hfalse
        simp at hfalse
      · have h1 : ':' ∈ sr := by
          rw [hsreq]
          exact List.mem_append_right _ (by simp)
        have hmem : ':' ∈ tg0 := by
          rw [hxs]
          exact List.mem_append_left _ h1
        exact hcol ':' hmem rfl

/-- C10: the credential-definition-id validator accepts a value in which
text follows the schema sequence number with no colon separator, because
the optional tag group requires no leading colon. -/
theorem claim10_creddef_no_colon_tag :
    IndyCredDefId.validate "WgWxqztrNooG92RXvxSTWv:3:CL:20abc" = true := by
  decide

end Valid

namespace Valid

/-! ## The ISO-8601 datetime pattern, characterized -/

/-- A two-digit field. -/
def digits2 (l : List Char) : Prop :=
  l.length = 2 ∧ l.all isPyDigit = true

/-- The optional seconds group `(?:\:(\d\d(?:\.\d{1,6})?))?`. -/
def secChunk (l : List Char) : Prop :=
  l = [] ∨ ∃ ss fr, l = ':' :: (ss ++ fr) ∧ digits2 ss ∧
    (fr = [] ∨ ∃ fd, fr = '.' :: fd ∧ 1 ≤ fd.length ∧ fd.length ≤ 6 ∧
      fd.all isPyDigit = true)

/-- The timezone group `([+-]\d\d:?\d\d|Z)`. -/
def tzChunk (l : List Char) : Prop :=
  (∃ sg h2 co m2, l = sg :: (h2 ++ (co ++ m2)) ∧ isSign sg = true ∧
    digits2 h2 ∧ (co = [] ∨ co = [':']) ∧ digits2 m2) ∨ l = ['Z']

/-- The whole datetime shape (before the `$` concession). -/
def isoCore (l : List Char) : Prop :=
  ∃ y mo dy sep hh mi sec tz,
    l = y ++ '-' :: (mo ++ '-' :: (dy ++ sep ::
      (hh ++ ':' :: (mi ++ (sec ++ tz))))) ∧
    y.length = 4 ∧ y.all isPyDigit = true ∧ digits2 mo ∧ digits2 dy ∧
    isTSep sep = true ∧ digits2 hh ∧ digits2 mi ∧ secChunk sec ∧ tzChunk tz

/-- The datetime pattern matches exactly the structural shape `isoCore`. -/
theorem iso_core_iff (l : List Char) :
    rmatch IndyISO8601DateTime.pattern l = true ↔ isoCore l := by
  rw [IndyISO8601DateTime.pattern]
  constructor
  · intro hm
    rw [rmatch_seq_rep_cls] at hm
    obtain ⟨y, t1, rfl, hy1, hy2, hy3, hm⟩ := hm
    rw [rmatch_seq_chr] at hm
    obtain ⟨t2, rfl, hm⟩ := hm
    rw [rmatch_seq_rep_cls] at hm
    obtain ⟨mo, t3, rfl, hmo1, hmo2, hmo3, hm⟩ := hm
    rw [rmatch_seq_chr] at hm
    obtain ⟨t4, rfl, hm⟩ := hm
    rw [rmatch_seq_rep_cls] at hm
    obtain ⟨dy, t5, rfl, hdy1, hdy2, hdy3, hm⟩ := hm
    rw [rmatch_seq_cls] at hm
    obtain ⟨sep, t6, rfl, hsep, hm⟩ := hm
    rw [rmatch_seq_rep_cls] at hm
    obtain ⟨hh, t7, rfl, hhh1, hhh2, hhh3, hm⟩ := hm
    rw [rmatch_seq_chr] at hm
    obtain ⟨t8, rfl, hm⟩ := hm
    rw [rmatch_seq_rep_cls] at hm
    obtain ⟨mi, t9, rfl, hmi1, hmi2, hmi3, hm⟩ := hm
    rw [rmatch_seq] at hm
    obtain ⟨sec, tz, rfl, hsec, htz⟩ := hm
    refine ⟨y, mo, dy, sep, hh, mi, sec, tz, rfl, by omega, hy3,
      ⟨by omega, hmo3⟩, ⟨by omega, hdy3⟩, hsep, ⟨by omega, hhh3⟩,
      ⟨by omega, hmi3⟩, ?_, ?_⟩
    · rcases (rmatch_opt _ sec).mp hsec with rfl | h
      · exact Or.inl rfl
      · rw [rmatch_seq_chr] at h
        obtain ⟨s1, rfl, h⟩ := h
        rw [rmatch_seq_rep_cls] at h
        obtain ⟨ss, fr, rfl, hs1, hs2, hs3, h⟩ := h
        refine Or.inr ⟨ss, fr, rfl, ⟨by omega, hs3⟩, ?_⟩
        rcases (rmatch_opt _ fr).mp h with rfl | h2
        · exact Or.inl rfl
        · rw [rmatch_seq_chr] at h2
          obtain ⟨fd, rfl, h2⟩ := h2
          obtain ⟨hf1, hf2, hf3⟩ := (rmatch_rep_cls _ _ _ fd).mp h2
          exact Or.inr ⟨fd, rfl, hf1, hf2, hf3⟩
    · rw [rmatch_alt, Bool.or_eq_true] at htz
      rcases htz with h | h
      · rw [rmatch_seq_cls] at h
        obtain ⟨sg, z1, rfl, hsg, h⟩ := h
        rw [rmatch_seq_rep_cls] at h
        obtain ⟨h2c, z2, rfl, hz1, hz2, hz3, h⟩ := h
        rw [rmatch_seq] at h
        obtain ⟨co, m2, rfl, hco, hm2⟩ := h
        obtain ⟨hm2a, hm2b, hm2c⟩ := (rmatch_rep_cls _ _ _ m2).mp hm2
        refine Or.inl ⟨sg, h2c, co, m2, rfl, hsg, ⟨by omega, hz3⟩, ?_,
          ⟨by omega, hm2c⟩⟩
        rcases (rmatch_opt _ co).mp hco with rfl | hx
        · exact Or.inl rfl
        · exact Or.inr ((rmatch_chr _ _).mp hx)
      · exact Or.inr ((rmatch_chr _ _).mp h)
  · rintro ⟨y, mo, dy, sep, hh, mi, sec, tz, rfl, hy1, hy2, ⟨hmo1, hmo2⟩,
      ⟨hdy1, hdy2⟩, hsep, ⟨hhh1, hhh2⟩, ⟨hmi1, hmi2⟩, hsec, htz⟩
    rw [rmatch_seq_rep_cls]
    refine ⟨y, _, rfl, by omega, by omega, hy2, ?_⟩
    rw [rmatch_seq_chr]
    refine ⟨_, rfl, ?_⟩
    rw [rmatch_seq_rep_cls]
    refine ⟨mo, _, rfl, by omega, by omega, hmo2, ?_⟩
    rw [rmatch_seq_chr]
    refine ⟨_, rfl, ?_⟩
    rw [rmatch_seq_rep_cls]
    refine ⟨dy, _, rfl, by omega, by omega, hdy2, ?_⟩
    rw [rmatch_seq_cls]
    refine ⟨sep, _, rfl, hsep, ?_⟩
    rw [rmatch_seq_rep_cls]
    refine ⟨hh, _, rfl, by omega, by omega, hhh2, ?_⟩
    rw [rmatch_seq_chr]
    refine ⟨_, rfl, ?_⟩
    rw [rmatch_seq_rep_cls]
    refine ⟨mi, _, rfl, by omega, by omega, hmi2, ?_⟩
    rw [rmatch_seq]
    refine ⟨sec, tz, rfl, ?_, ?_⟩
    · rcases hsec with rfl | ⟨ss, fr, rfl, ⟨hss1, hss2⟩, hfr⟩
      · exact (rmatch_opt _ _).mpr (Or.inl rfl)
      · refine (rmatch_opt _ _).mpr (Or.inr ?_)
        rw [rmatch_seq_chr]
        refine ⟨ss ++ fr, rfl, ?_⟩
        rw [rmatch_seq_rep_cls]
        refine ⟨ss, fr, rfl, by omega, by omega, hss2, ?_⟩
        rcases hfr with rfl | ⟨fd, rfl, hfd1, hfd2, hfd3⟩
        · exact (rmatch_opt _ _).mpr (Or.inl rfl)
        · refine (rmatch_opt _ _).mpr (Or.inr ?_)
          rw [rmatch_seq_chr]
          exact ⟨fd, rfl, (rmatch_rep_cls _ _ _ fd).mpr ⟨hfd1, hfd2, hfd3⟩⟩
    · rw [rmatch_alt, Bool.or_eq_true]
      rcases htz with ⟨sg, h2c, co, m2, rfl, hsg, ⟨hA, hB⟩, hco, ⟨hC, hD⟩⟩ | rfl
      · left
        rw [rmatch_seq_cls]
        refine ⟨sg, _, rfl, hsg, ?_⟩
        rw [rmatch_seq_rep_cls]
        refine ⟨h2c, _, rfl, by omega, by omega, hB, ?_⟩
        rw [rmatch_seq]
        refine ⟨co, m2, rfl, ?_,
          (rmatch_rep_cls _ _ _ m2).mpr ⟨by omega, by omega, hD⟩⟩
        rcases hco with rfl | rfl
        · exact (rmatch_opt _ _).mpr (Or.inl rfl)
        · exact (rmatch_opt _ _).mpr (Or.inr ((rmatch_chr _ _).mpr rfl))
      · right
        exact (rmatch_chr _ _).mpr rfl

/-- Acceptance by the datetime validator: the structural shape, with the
`$` concession for one trailing newline. -/
theorem iso_accept_iff (s : String) :
    IndyISO8601DateTime.validate s = true ↔
      ∃ core nl, s.toList = core ++ nl ∧ isoCore core ∧
        (nl = [] ∨ nl = ['\n']) := by
  rw [IndyISO8601DateTime.validate, matchDollar_iff]
  constructor
  · rintro ⟨u, v, h, hu, hv⟩
    exact ⟨u, v, h, (iso_core_iff u).mp hu, hv⟩
  · rintro ⟨u, v, h, hu, hv⟩
    exact ⟨u, v, h, (iso_core_iff u).mpr hu, hv⟩

end Valid

namespace Valid

/-! ## Claim C5, and the modelled example rendering for C9 -/

/-- C5, counterexample: the datetime validator accepts
`"2021-01-01T00:00:00Z\n"`, which the pattern itself (the claimed shape,
anchored at the true end) does not match: the Python `$` also matches just
before the trailing newline. -/
theorem claim5_iso_counterexample :
    IndyISO8601DateTime.validate "2021-01-01T00:00:00Z\n" = true ∧
    rmatch IndyISO8601DateTime.pattern ("2021-01-01T00:00:00Z\n".toList)
      = false := by
  exact ⟨by decide, by decide⟩

/-- C5, as amended: the datetime validator accepts a string iff it has the
claimed shape (date, `T` or space, `HH:MM`, optional seconds with optional
1-6 fraction digits, timezone offset or `Z`), with every digit position
drawn from the Unicode decimal digits that Python's `\d` matches,
optionally followed by one final newline; the check is purely syntactic, so
month 13 passes, and a year written in Arabic-Indic digits passes too. -/
theorem claim5_iso_datetime :
    (∀ s : String, IndyISO8601DateTime.validate s = true ↔
      ∃ core nl, s.toList = core ++ nl ∧ isoCore core ∧
        (nl = [] ∨ nl = ['\n'])) ∧
    IndyISO8601DateTime.validate "2021-01-01T00:00:00Z" = true ∧
    IndyISO8601DateTime.validate "2021-01-01T00:00:00.123456+05:30" = true ∧
    IndyISO8601DateTime.validate "2021-13-01T00:00:00Z" = true ∧
    IndyISO8601DateTime.validate "٢٠٢١-01-01T00:00Z" = true := by
  exact ⟨fun s => iso_accept_iff s, by decide, by decide, by decide,
    by decide⟩

/-- One decimal digit: the units digit of `n`, as a character. -/
def digitOf (n : Nat) : Char :=
  match n % 10 with
  | 0 => '0'
  | 1 => '1'
  | 2 => '2'
  | 3 => '3'
  | 4 => '4'
  | 5 => '5'
  | 6 => '6'
  | 7 => '7'
  | 8 => '8'
  | _ => '9'

/-- Two-digit zero-padded decimal rendering (faithful below 100). -/
def pad2 (n : Nat) : List Char := [digitOf (n / 10), digitOf n]

/-- Four-digit zero-padded decimal rendering (faithful below 10000). -/
def pad4 (n : Nat) : List Char :=
  [digitOf (n / 1000), digitOf (n / 100), digitOf (n / 10), digitOf n]

/-- Days since 1970-01-01 to the civil (year, month, day), by the standard
era-based conversion. -/
def civilFromDays (z : Nat) : Nat × Nat × Nat :=
  let zz := z + 719468
  let era := zz / 146097
  let doe := zz % 146097
  let yoe := (doe - doe / 1460 + doe / 36524 - doe / 146096) / 365
  let doy := doe - (365 * yoe + yoe / 4 - yoe / 100)
  let mp := (5 * doy + 2) / 153
  let dd := doy - (153 * mp + 2) / 5 + 1
  let m := if mp < 10 then mp + 3 else mp - 9
  (if m ≤ 2 then yoe + era * 400 + 1 else yoe + era * 400, m, dd)

/-- The character list of the rendered datetime of epoch second `n`. -/
def isoChars (n : Nat) : List Char :=
  pad4 (civilFromDays (n / 86400)).1 ++
    '-' :: (pad2 (civilFromDays (n / 86400)).2.1 ++
    '-' :: (pad2 (civilFromDays (n / 86400)).2.2 ++
    ' ' :: (pad2 (n % 86400 / 3600) ++
    ':' :: (pad2 (n % 86400 % 3600 / 60) ++
    ((':' :: pad2 (n % 86400 % 60)) ++ ['Z'])))))

/-- Modelled from the spec: `epoch_to_str` is imported from `.util`, whose
file is not among the sources.  Per the spec, the datetime validator's
example is the rendering of the current epoch in the validated ISO-8601
shape; we model it as the civil UTC date and time of the epoch, with a
space separator, zero-padded decimal fields, seconds and a literal Z
timezone. -/
def epochToStr (t : Int) : String := String.mk (isoChars t.toNat)

/-- `IndyISO8601DateTime.EXAMPLE` is `epoch_to_str` of the current epoch
second, a value fixed only at process start, here a parameter. -/
def IndyISO8601DateTime.EXAMPLE (now : Int) : String := epochToStr now

theorem digitOf_pyDigit (n : Nat) : isPyDigit (digitOf n) = true := by
  unfold digitOf
  split <;> decide

theorem epochToStr_accepted (t : Int) :
    IndyISO8601DateTime.validate (epochToStr t) = true := by
  rw [iso_accept_iff]
  refine ⟨isoChars t.toNat, [], by simp [epochToStr], ?_, Or.inl rfl⟩
  refine ⟨pad4 (civilFromDays (t.toNat / 86400)).1,
    pad2 (civilFromDays (t.toNat / 86400)).2.1,
    pad2 (civilFromDays (t.toNat / 86400)).2.2, ' ',
    pad2 (t.toNat % 86400 / 3600), pad2 (t.toNat % 86400 % 3600 / 60),
    ':' :: pad2 (t.toNat % 86400 % 60), ['Z'], rfl,
    rfl, by simp [pad4, digitOf_pyDigit], ⟨rfl, by simp [pad2, digitOf_pyDigit]⟩,
    ⟨rfl, by simp [pad2, digitOf_pyDigit]⟩, by decide,
    ⟨rfl, by simp [pad2, digitOf_pyDigit]⟩,
    ⟨rfl, by simp [pad2, digitOf_pyDigit]⟩, ?_, Or.inr rfl⟩
  exact Or.inr ⟨pad2 (t.toNat % 86400 % 60), [], by simp,
    ⟨rfl, by simp [pad2, digitOf_pyDigit]⟩, Or.inl rfl⟩

/-! ## Claim C9 -/

/-- C9: every catalog example passes its own validator.  The epoch and
datetime examples are computed from the clock at process start; they pass
provided the current epoch second lies in the validated range (as it does
for any start time between 1970 and 2038). -/
theorem claim9_examples (now : Int) (h0 : 0 ≤ now)
    (h1 : now ≤ 2147483647) :
    IntEpoch.validate (IntEpoch.EXAMPLE now) = true ∧
    IndyDID.validate IndyDID.EXAMPLE = true ∧
    IndyCredDefId.validate IndyCredDefId.EXAMPLE = true ∧
    IndyVersion.validate IndyVersion.EXAMPLE = true ∧
    IndySchemaId.validate IndySchemaId.EXAMPLE = true ∧
    IndyPredicate.validate IndyPredicate.EXAMPLE = true ∧
    IndyISO8601DateTime.validate (IndyISO8601DateTime.EXAMPLE now) = true ∧
    Base64.validate (some Base64.EXAMPLE) = true ∧
    SHA256Hash.validate SHA256Hash.EXAMPLE = true := by
  refine ⟨?_, by decide, by decide, by decide, by decide, by decide,
    epochToStr_accepted now, by decide, by decide⟩
  simp [IntEpoch.validate, IntEpoch.EXAMPLE, IntEpoch.minVal,
    IntEpoch.maxVal, h0, h1]

/-- C9, witness: the self-consistency conjunction evaluated at the
concrete epoch second 1760227200 (2026-10-12 UTC). -/
theorem claim9_examples_witness :
    IntEpoch.validate (IntEpoch.EXAMPLE 1760227200) = true ∧
    IndyDID.validate IndyDID.EXAMPLE = true ∧
    IndyCredDefId.validate IndyCredDefId.EXAMPLE = true ∧
    IndyVersion.validate IndyVersion.EXAMPLE = true ∧
    IndySchemaId.validate IndySchemaId.EXAMPLE = true ∧
    IndyPredicate.validate IndyPredicate.EXAMPLE = true ∧
    IndyISO8601DateTime.validate (IndyISO8601DateTime.EXAMPLE 1760227200)
      = true ∧
    Base64.validate (some Base64.EXAMPLE) = true ∧
    SHA256Hash.validate SHA256Hash.EXAMPLE = true :=
  claim9_examples 1760227200 (by decide) (by decide)

end Valid
